import Mathlib

/-!
Verification of the Lattice LLM routing gateway against its specification.

The development shallowly embeds the Python sources:
  * `src/lattice/pii.py`              — sensitivity tagging (`detect_tags`)
  * `src/backend/router/complexity.py` — complexity scorer (`score_complexity`, `choose_band`)
  * `src/lattice/router/bands.py`      — bands registry
  * `src/lattice/router/completion.py` — the multi-candidate routing pipeline
  * `src/lattice/cache.py`             — cache key derivation (`make_cache_key`)
  * `src/lattice/metrics.py`           — in-memory metrics backend
  * `src/sdk-python/rajos/cost.py`     — pricing / cost computation

Texts are modelled as `List Char` (Python strings, one element per code point),
machine floats as `ℚ` with explicit decimal rounding, Python `int` as `ℤ`,
and Python dict/JSON data as association lists and explicit structures.
-/

namespace LatticeModel

/-! ## Basic text utilities

Python `str.lower()` restricted to ASCII (every text the routed configuration
produces is ASCII; Python and this model agree there), `str.strip()` for ASCII
whitespace, and substring tests. -/

/-- ASCII lower-casing of one character, as Python `str.lower` acts on ASCII. -/
def lowerChar (c : Char) : Char :=
  if 65 ≤ c.toNat ∧ c.toNat ≤ 90 then Char.ofNat (c.toNat + 32) else c

/-- Lower-case a whole text. -/
def lowerL (l : List Char) : List Char := l.map lowerChar

/-- Lower-case a Lean `String` (used for provider / model identifiers). -/
def lowerStr (s : String) : String := String.mk (lowerL s.data)

/-- Python `str.strip()` whitespace set (ASCII). -/
def isWs (c : Char) : Bool :=
  c = ' ' ∨ c = '\t' ∨ c = '\n' ∨ c = '\r' ∨ c = '\x0b' ∨ c = '\x0c'

/-- Python `str.strip()`: drop whitespace from both ends. -/
def stripL (l : List Char) : List Char :=
  ((l.dropWhile isWs).reverse.dropWhile isWs).reverse

/-- Python `pat in txt` (contiguous substring test). -/
def isSubstr (pat : List Char) : List Char → Bool
  | [] => pat.isEmpty
  | c :: t => pat.isPrefixOf (c :: t) || isSubstr pat t

/-! ## Code-point lexicographic order on strings

Python compares strings by code points; `sorted` uses this order.  We use an
executable Boolean order so concrete runs reduce in the kernel. -/

/-- Lexicographic strict order on char lists by code point. -/
def lexLt : List Char → List Char → Bool
  | [], [] => false
  | [], _ :: _ => true
  | _ :: _, [] => false
  | a :: as, b :: bs =>
    if a.toNat < b.toNat then true
    else if a.toNat = b.toNat then lexLt as bs
    else false

/-- Python `<` on strings. -/
def strLt (a b : String) : Bool := lexLt a.data b.data

/-! ## `sorted(set(...))`

Python's `sorted(set(xs))`: the distinct elements of `xs` in increasing
code-point order.  Implemented as insertion into a sorted duplicate-free
list. -/

/-- Insert a string into a sorted duplicate-free list, keeping it so. -/
def insertSorted (x : String) : List String → List String
  | [] => [x]
  | y :: ys =>
    if strLt x y then x :: y :: ys
    else if x = y then y :: ys
    else y :: insertSorted x ys

/-- Python `sorted(set(l))`. -/
def sortDedup (l : List String) : List String := l.foldr insertSorted []

/-- Sortedness predicate used throughout: consecutive elements strictly grow. -/
def SortedStr (l : List String) : Prop := List.Chain' (fun a b => strLt a b = true) l

/-! ## A small regular-expression engine

Executable Brzozowski-derivative matcher, enough for the three patterns of
`src/lattice/pii.py` and the word searches of
`src/backend/router/complexity.py`.  Repetition bodies in those patterns never
match the empty word, which the `rep` derivative below relies on. -/

/-- Regular expressions over character predicates.  `rep r lo hi` is `r{lo,hi}`
(`hi = none` meaning unbounded). -/
inductive RE where
  | emp : RE
  | eps : RE
  | cls : (Char → Bool) → RE
  | cat : RE → RE → RE
  | alt : RE → RE → RE
  | rep : RE → Nat → Option Nat → RE

/-- Does the expression accept the empty word? -/
def RE.nullable : RE → Bool
  | .emp => false
  | .eps => true
  | .cls _ => false
  | .cat a b => a.nullable && b.nullable
  | .alt a b => a.nullable || b.nullable
  | .rep a lo _ => lo = 0 || a.nullable

/-- Brzozowski derivative with respect to one character (repetition bodies are
assumed not to accept the empty word, true of every pattern below). -/
def RE.deriv (c : Char) : RE → RE
  | .emp => .emp
  | .eps => .emp
  | .cls p => if p c then .eps else .emp
  | .cat a b =>
    if a.nullable then .alt (.cat (a.deriv c) b) (b.deriv c)
    else .cat (a.deriv c) b
  | .alt a b => .alt (a.deriv c) (b.deriv c)
  | .rep a lo hi =>
    match hi with
    | some 0 => .emp
    | some (n + 1) => .cat (a.deriv c) (.rep a (lo - 1) (some n))
    | none => .cat (a.deriv c) (.rep a (lo - 1) none)

/-- Does some prefix of the text match the expression? -/
def RE.matchesPrefix (r : RE) : List Char → Bool
  | [] => r.nullable
  | c :: t => r.nullable || (r.deriv c).matchesPrefix t

/-- Python `re.search` truthiness: does the pattern match anywhere? -/
def RE.search (r : RE) : List Char → Bool
  | [] => r.nullable
  | c :: t => r.matchesPrefix (c :: t) || r.search t

/-- `r?` — zero or one occurrence. -/
def RE.opt (r : RE) : RE := .alt .eps r

/-- Word characters for Python `\b` (ASCII `\w`). -/
def isWordChar (c : Char) : Bool :=
  (48 ≤ c.toNat ∧ c.toNat ≤ 57) ∨ (65 ≤ c.toNat ∧ c.toNat ≤ 90) ∨
    (97 ≤ c.toNat ∧ c.toNat ≤ 122) ∨ c = '_'

/-- Python `\b` between two positions (out of string counts as non-word). -/
def wordBoundary (prev next : Option Char) : Bool :=
  (prev.elim false isWordChar) ≠ (next.elim false isWordChar)

/-- Does some prefix of `l` match `r` with a `\b` right after the match?
`lastc` is the character just before the current position. -/
def RE.matchesPrefixToBoundary (r : RE) (lastc : Option Char) : List Char → Bool
  | [] => r.nullable && wordBoundary lastc none
  | c :: t =>
    (r.nullable && wordBoundary lastc (some c)) ||
      (r.deriv c).matchesPrefixToBoundary (some c) t

/-- Python `re.search` of `\b r \b` (boundary at both ends of the match). -/
def RE.searchWordBounded (r : RE) : Option Char → List Char → Bool
  | _, [] => false
  | prev, c :: t =>
    (wordBoundary prev (some c) && r.matchesPrefixToBoundary prev (c :: t)) ||
      r.searchWordBounded (some c) t

/-! ## Sensitivity tagging — `src/lattice/pii.py` -/

/-- ASCII digit test (Python `\d` on the texts at hand). -/
def isDigit (c : Char) : Bool := 48 ≤ c.toNat ∧ c.toNat ≤ 57

/-- Character class `[A-Z0-9._%+-]` with `re.IGNORECASE`. -/
def emailLocalChar (c : Char) : Bool :=
  (65 ≤ c.toNat ∧ c.toNat ≤ 90) ∨ (97 ≤ c.toNat ∧ c.toNat ≤ 122) ∨
    isDigit c ∨ c = '.' ∨ c = '_' ∨ c = '%' ∨ c = '+' ∨ c = '-'

/-- Character class `[A-Z0-9.-]` with `re.IGNORECASE`. -/
def emailDomainChar (c : Char) : Bool :=
  (65 ≤ c.toNat ∧ c.toNat ≤ 90) ∨ (97 ≤ c.toNat ∧ c.toNat ≤ 122) ∨
    isDigit c ∨ c = '.' ∨ c = '-'

/-- Character class `[A-Z]` with `re.IGNORECASE`. -/
def asciiAlpha (c : Char) : Bool :=
  (65 ≤ c.toNat ∧ c.toNat ≤ 90) ∨ (97 ≤ c.toNat ∧ c.toNat ≤ 122)

/-- `EMAIL_RE = [A-Z0-9._%+-]+@[A-Z0-9.-]+\.[A-Z]{2,}` (IGNORECASE). -/
def EMAIL_RE : RE :=
  .cat (.rep (.cls emailLocalChar) 1 none)
    (.cat (.cls (· = '@'))
      (.cat (.rep (.cls emailDomainChar) 1 none)
        (.cat (.cls (· = '.')) (.rep (.cls asciiAlpha) 2 none))))

/-- Character class `[ -]`. -/
def spaceDash (c : Char) : Bool := c = ' ' ∨ c = '-'

/-- Body of `PHONE_RE` (between the two `\b` anchors):
`(?:\+?\d{1,3}[ -]?)?\(?\d{3}\)?[ -]?\d{3}[ -]?\d{4}`. -/
def PHONE_BODY : RE :=
  .cat
    (RE.opt (.cat (RE.opt (.cls (· = '+')))
      (.cat (.rep (.cls isDigit) 1 (some 3)) (RE.opt (.cls spaceDash)))))
    (.cat (RE.opt (.cls (· = '(')))
      (.cat (.rep (.cls isDigit) 3 (some 3))
        (.cat (RE.opt (.cls (· = ')')))
          (.cat (RE.opt (.cls spaceDash))
            (.cat (.rep (.cls isDigit) 3 (some 3))
              (.cat (RE.opt (.cls spaceDash)) (.rep (.cls isDigit) 4 (some 4))))))))

/-- Body of `CREDIT_CARD_RE` (between the two `\b` anchors): `(?:\d[ -]?){13,16}`. -/
def CARD_BODY : RE :=
  .rep (.cat (.cls isDigit) (RE.opt (.cls spaceDash))) 13 (some 16)

/-- `PHI_KEYWORDS` from `src/lattice/pii.py`. -/
def PHI_KEYWORDS : List String :=
  ["doctor", "diagnosis", "prescription", "hospital", "patient", "medical"]

/-- `FINANCIAL_KEYWORDS` from `src/lattice/pii.py`. -/
def FINANCIAL_KEYWORDS : List String :=
  ["salary", "bank", "loan", "credit", "mortgage", "account number"]

/-- `_scan_keywords`: some keyword occurs in the lower-cased text. -/
def scanKeywords (text : List Char) (keywords : List String) : Bool :=
  keywords.any (fun k => isSubstr k.data (lowerL text))

/-- `detect_tags` from `src/lattice/pii.py`: regex / keyword tags for a text.
`None` inputs are handled by the caller passing `[]`. -/
def detect_tags (text : List Char) : List String :=
  if text.isEmpty then []
  else
    sortDedup
      ((if EMAIL_RE.search text then ["PII_EMAIL"] else []) ++
        (if PHONE_BODY.searchWordBounded none text then ["PII_PHONE"] else []) ++
        (if CARD_BODY.searchWordBounded none text then ["PII_FINANCIAL_CARD"] else []) ++
        (if scanKeywords text PHI_KEYWORDS then ["PHI_MEDICAL"] else []) ++
        (if scanKeywords text FINANCIAL_KEYWORDS then ["FINANCIAL_TERMS"] else []))

/-- The fixed tag taxonomy of the specification. -/
def TAXONOMY : List String :=
  ["PII_EMAIL", "PII_PHONE", "PII_FINANCIAL_CARD", "PHI_MEDICAL", "FINANCIAL_TERMS"]

/-! ## Complexity scorer — `src/backend/router/complexity.py` -/

/-- `RISK_KEYWORDS` from `src/backend/router/complexity.py`. -/
def RISK_KEYWORDS : List String :=
  ["analyze", "optimize", "summarize", "compare", "design", "explain", "policy",
    "architecture", "draft", "contract", "clause", "compliance", "legal",
    "governance", "security", "regulation", "migration"]

/-- Character class `[\x7b\x7d\[\]\(\)\=\+\-\*/<>]` of the symbol-density factor. -/
def symChar (c : Char) : Bool :=
  c = '\x7b' ∨ c = '\x7d' ∨ c = '[' ∨ c = ']' ∨ c = '(' ∨ c = ')' ∨
    c = '=' ∨ c = '+' ∨ c = '-' ∨ c = '*' ∨ c = '/' ∨ c = '<' ∨ c = '>'

/-- Sentence separator class `[.!?]`. -/
def sentChar (c : Char) : Bool := c = '.' ∨ c = '!' ∨ c = '?'

/-- Number of maximal nonempty runs of sentence separators. -/
def sepRuns (inRun : Bool) : List Char → Nat
  | [] => 0
  | c :: t =>
    if sentChar c then (if inRun then sepRuns true t else 1 + sepRuns true t)
    else sepRuns false t

/-- `len(re.split(r"[.!?]+", prompt))`: pieces produced by splitting on maximal
separator runs, counting empty pieces at either end like Python does. -/
def splitPieces (l : List Char) : Nat := sepRuns false l + 1

/-- Word search `\bclass\b|\bdef\b|\bfunction\b` for the code-fence factor. -/
def wordRE (w : String) : RE :=
  w.data.foldr (fun c r => RE.cat (.cls (· = c)) r) .eps

/-- `re.search(r"\bclass\b|\bdef\b|\bfunction\b", prompt)`. -/
def hasCodeWord (l : List Char) : Bool :=
  (wordRE "class").searchWordBounded none l ||
    (wordRE "def").searchWordBounded none l ||
      (wordRE "function").searchWordBounded none l

/-- `re.search(r"\x7b.*:.*\x7d", prompt, flags=re.S)`: a brace, then a colon,
then a closing brace, in order. -/
def hasJsonShape (l : List Char) : Bool :=
  match (l.dropWhile (fun c => ¬ c = '\x7b')) with
  | [] => false
  | _ :: t1 =>
    match t1.dropWhile (fun c => ¬ c = ':') with
    | [] => false
    | _ :: t2 => t2.any (fun c => c = '\x7d')

/-- `min` for the clamped feature ratios. -/
def minQ (a b : ℚ) : ℚ := if a ≤ b then a else b

/-- `max` used in the final clamp. -/
def maxQ (a b : ℚ) : ℚ := if a ≤ b then b else a

/-- Keywords of `RISK_KEYWORDS` occurring in the lower-cased prompt (both
`score_complexity` and `choose_band` count them this way). -/
def keywordHits (prompt : List Char) : Nat :=
  (RISK_KEYWORDS.filter (fun k => isSubstr k.data (lowerL prompt))).length

/-- `score_complexity` from `src/backend/router/complexity.py`, with floats as
exact rationals. -/
def score_complexity (prompt : List Char) : ℚ :=
  if prompt.isEmpty then 0
  else
    let nChars : ℚ := prompt.length
    let fLen := minQ (nChars / 2000) 1
    let fDigits := minQ ((prompt.countP (fun c => isDigit c)) / 50 : ℚ) 1
    let fSymbols := minQ ((prompt.countP (fun c => symChar c)) / 80 : ℚ) 1
    let fCode : ℚ := if isSubstr "```".data prompt || hasCodeWord prompt then 1/5 else 0
    let fJson : ℚ := if hasJsonShape prompt then 1/5 else 0
    let fSent := minQ ((splitPieces prompt) / 20 : ℚ) 1
    let fKw := minQ ((keywordHits prompt) / 10 : ℚ) (3/10)
    let score := 45/100 * fLen + 15/100 * fDigits + 1/10 * fSymbols +
      fCode + fJson + 1/5 * fSent + fKw
    maxQ 0 (minQ score 1)

/-- `LONG_CONTEXT_CHAR_THRESHOLD` from `src/backend/router/complexity.py`. -/
def LONG_CONTEXT_CHAR_THRESHOLD : Nat := 4000

/-- `choose_band` from `src/backend/router/complexity.py`: legacy band label
from a score and the prompt text. -/
def choose_band (score : ℚ) (prompt : List Char) : String :=
  let textLen := prompt.length
  let hits := keywordHits prompt
  if textLen ≥ LONG_CONTEXT_CHAR_THRESHOLD then "long_context"
  else if textLen ≥ 900 ∨ score ≥ 65/100 ∨ hits ≥ 3 then "complex"
  else if textLen ≤ 160 ∧ score ≤ 12/100 ∧ hits = 0 then "simple"
  else if score < 35/100 ∧ textLen < 350 ∧ hits ≤ 1 then "simple"
  else "moderate"

/-- The band `service.complete` would infer from a prompt
(`choose_band(score_complexity(prompt), prompt)`). -/
def inferredBand (prompt : List Char) : String :=
  choose_band (score_complexity prompt) prompt

/-! ## Band alias normalization — `src/lattice/router/completion.py` -/

/-- `_BAND_ALIASES` from `src/lattice/router/completion.py`. -/
def BAND_ALIASES : List (String × String) :=
  [("simple", "low"), ("low", "low"), ("moderate", "mid"), ("mid", "mid"),
    ("medium", "mid"), ("complex", "high"), ("high", "high"),
    ("long_context", "high")]

/-- `_BAND_ALIASES.get(band.lower(), band.lower())` on a present band value. -/
def normalizeBandStr (band : String) : String :=
  ((BAND_ALIASES.lookup (lowerStr band)).getD (lowerStr band))

/-- `_normalize_band` from `src/lattice/router/completion.py`. -/
def normalize_band (band : Option String) : Option String :=
  match band with
  | none => none
  | some b => if b = "" then none else some (normalizeBandStr b)

/-! ## Decision tree of the specification (C7)

Transcribed from the claim: length and score thresholds in order, with the
legacy labels already collapsed to `high` / `low` / `mid`. -/

/-- The specification's band decision tree (spec §4.3), producing the
normalized bands directly. -/
def specBandTree (score : ℚ) (prompt : List Char) : String :=
  let textLen := prompt.length
  let hits := keywordHits prompt
  if textLen ≥ 4000 then "high"
  else if textLen ≥ 900 ∨ score ≥ 65/100 ∨ hits ≥ 3 then "high"
  else if textLen ≤ 160 ∧ score ≤ 12/100 ∧ hits = 0 then "low"
  else if score < 35/100 ∧ textLen < 350 ∧ hits ≤ 1 then "low"
  else "mid"

/-! ## Bands registry — `src/lattice/router/bands.py` -/

/-- A `(provider, model)` candidate (`BandModel` in the source, providers are
lower-cased at load time). -/
structure Candidate where
  provider : String
  model : String
deriving DecidableEq, Repr

/-- `BandConfig`: one named band with its ordered candidate list. -/
structure BandConfig where
  name : String
  models : List Candidate
deriving DecidableEq, Repr

/-- `BandsRegistry`: insertion-ordered band table plus the default band name. -/
structure BandsRegistry where
  default_band : String
  bands : List (String × BandConfig)
deriving DecidableEq, Repr

/-- `BandsRegistry.get_band`. -/
def get_band (reg : BandsRegistry) (band : String) : Option BandConfig :=
  reg.bands.lookup band

/-- `BandsRegistry.get_default_band`:
`self._bands.get(self.default_band) or next(iter(self._bands.values()))`;
`none` models the `StopIteration` crash on an empty registry. -/
def get_default_band (reg : BandsRegistry) : Option BandConfig :=
  (get_band reg reg.default_band).orElse (fun _ => (reg.bands.head?).map (·.2))

/-- `BandsRegistry.find_provider_for_model`: case-insensitive scan across all
bands, in declaration order. -/
def find_provider_for_model (reg : BandsRegistry) (model : String) : Option String :=
  let target := lowerStr model
  (reg.bands.flatMap (fun b => b.2.models)).findSome?
    (fun cand => if lowerStr cand.model = target then some cand.provider else none)

/-- `_resolve_band` from `src/lattice/router/completion.py` (`none` only when
the registry is empty, where the source would crash). -/
def resolve_band (reg : BandsRegistry) (requested : Option String) : Option String :=
  match requested with
  | some b =>
    match get_band reg b with
    | some cfg => some cfg.name
    | none => (get_default_band reg).map (·.name)
  | none => (get_default_band reg).map (·.name)

/-! ## Pricing and cost — `src/sdk-python/rajos/cost.py`

Python floats are modelled as exact rationals; `round(x, 8)` is round half to
even at eight decimal places, Python's rounding mode. -/

/-- Round half to even: the integer nearest to `x`, ties to the even one. -/
def roundHalfEven (x : ℚ) : ℤ :=
  let f := ⌊x⌋
  let r := x - f
  if r < 1/2 then f
  else if r > 1/2 then f + 1
  else if Even f then f else f + 1

/-- Python `round(x, 8)`. -/
def round8 (x : ℚ) : ℚ := (roundHalfEven (x * 100000000) : ℚ) / 100000000

/-- Pricing units of the table (`per_million`, `per_1k`, or anything else —
the source leaves unknown units unconverted). -/
inductive TokenUnit where
  | per_million : TokenUnit
  | per_1k : TokenUnit
  | other : String → TokenUnit
deriving DecidableEq, Repr

/-- One `providers[provider][model]` pricing entry. -/
structure PricingEntry where
  unit : TokenUnit
  input : ℚ
  output : ℚ
deriving DecidableEq, Repr

/-- `PricingConfig`: the JSON price table. -/
structure PricingConfig where
  currency : String
  version : Option String
  providers : List (String × List (String × PricingEntry))
deriving DecidableEq, Repr

/-- `PricingConfig.get_model_pricing`. -/
def get_model_pricing (cfg : PricingConfig) (provider model : String) :
    Option PricingEntry :=
  (cfg.providers.lookup provider).bind (fun models => models.lookup model)

/-- `_normalize_unit_price`: price per unit to price per token. -/
def normalize_unit_price (rawPrice : ℚ) (unit : TokenUnit) : ℚ :=
  match unit with
  | .per_million => rawPrice / 1000000
  | .per_1k => rawPrice / 1000
  | .other _ => rawPrice

/-- `CostBreakdown` returned by `compute_costs`. -/
structure CostBreakdown where
  currency : String
  provider : String
  model : String
  input_tokens : ℤ
  output_tokens : ℤ
  input_cost : ℚ
  output_cost : ℚ
  total_cost : ℚ
  pricing_version : Option String
deriving DecidableEq, Repr

/-- Unrounded input-side cost of a call (`in_tokens * input_price_per_token`
in `compute_costs`); zero when the pricing entry is missing. -/
def rawInputCost (cfg : PricingConfig) (provider model : String)
    (inputTokens : Option ℤ) : ℚ :=
  match get_model_pricing cfg provider model with
  | none => 0
  | some pricing => (inputTokens.getD 0 : ℚ) * normalize_unit_price pricing.input pricing.unit

/-- Unrounded output-side cost of a call. -/
def rawOutputCost (cfg : PricingConfig) (provider model : String)
    (outputTokens : Option ℤ) : ℚ :=
  match get_model_pricing cfg provider model with
  | none => 0
  | some pricing => (outputTokens.getD 0 : ℚ) * normalize_unit_price pricing.output pricing.unit

/-- `compute_costs` from `src/sdk-python/rajos/cost.py` (the pricing config is
passed explicitly; the lazily-loaded global is environment data). -/
def compute_costs (cfg : PricingConfig) (provider model : String)
    (inputTokens outputTokens : Option ℤ) : CostBreakdown :=
  let inTokens := inputTokens.getD 0
  let outTokens := outputTokens.getD 0
  match get_model_pricing cfg provider model with
  | none =>
    { currency := cfg.currency, provider := provider, model := model,
      input_tokens := inTokens, output_tokens := outTokens,
      input_cost := 0, output_cost := 0, total_cost := 0,
      pricing_version := cfg.version }
  | some pricing =>
    let inputPricePerToken := normalize_unit_price pricing.input pricing.unit
    let outputPricePerToken := normalize_unit_price pricing.output pricing.unit
    let inputCost := (inTokens : ℚ) * inputPricePerToken
    let outputCost := (outTokens : ℚ) * outputPricePerToken
    let totalCost := inputCost + outputCost
    { currency := cfg.currency, provider := provider, model := model,
      input_tokens := inTokens, output_tokens := outTokens,
      input_cost := round8 inputCost, output_cost := round8 outputCost,
      total_cost := round8 totalCost,
      pricing_version := cfg.version }

/-! ## Canonical JSON and SHA-256 — `src/lattice/cache.py`

`make_cache_key` hashes `json.dumps(payload, sort_keys=True,
separators=(",", ":"))` encoded as UTF-8.  `json.dumps` defaults to
`ensure_ascii=True`, so every code point above `0x7e` is `\uXXXX`-escaped and
the encoded text is pure ASCII. -/

/-- Lower-case hexadecimal digit. -/
def hexDigit (n : Nat) : Char :=
  if n < 10 then Char.ofNat (48 + n) else Char.ofNat (87 + n)

/-- Four-digit hexadecimal escape payload. -/
def hex4 (n : Nat) : List Char :=
  [hexDigit (n / 4096 % 16), hexDigit (n / 256 % 16), hexDigit (n / 16 % 16),
    hexDigit (n % 16)]

/-- JSON escape of one character, `ensure_ascii=True` (CPython's encoder). -/
def jsonEscapeChar (c : Char) : List Char :=
  if c = '"' then ['\\', '"']
  else if c = '\\' then ['\\', '\\']
  else if c = '\n' then ['\\', 'n']
  else if c = '\r' then ['\\', 'r']
  else if c = '\t' then ['\\', 't']
  else if c.toNat = 8 then ['\\', 'b']
  else if c.toNat = 12 then ['\\', 'f']
  else if c.toNat < 32 then '\\' :: 'u' :: hex4 c.toNat
  else if c.toNat ≤ 126 then [c]
  else if c.toNat < 65536 then '\\' :: 'u' :: hex4 c.toNat
  else
    let v := c.toNat - 65536
    ('\\' :: 'u' :: hex4 (55296 + v / 1024)) ++ ('\\' :: 'u' :: hex4 (56320 + v % 1024))

/-- JSON string literal for a text. -/
def jsonStr (s : List Char) : List Char :=
  '"' :: s.flatMap jsonEscapeChar ++ ['"']

/-- Insert one key/value pair into a key-sorted pair list. -/
def insertPairSorted (p : String × List Char) :
    List (String × List Char) → List (String × List Char)
  | [] => [p]
  | q :: qs => if strLt p.1 q.1 then p :: q :: qs else q :: insertPairSorted p qs

/-- Sort an association list by key (`sort_keys=True`). -/
def sortPairsByKey (l : List (String × List Char)) : List (String × List Char) :=
  l.foldr insertPairSorted []

/-- Comma-join already encoded members (`separators=(",", ":")`). -/
def joinComma : List (List Char) → List Char
  | [] => []
  | [x] => x
  | x :: y :: t => x ++ ',' :: joinComma (y :: t)

/-- `json.dumps` of a flat string-valued object with sorted keys and compact
separators. -/
def jsonObjSortedCompact (pairs : List (String × List Char)) : List Char :=
  '\x7b' :: joinComma ((sortPairsByKey pairs).map
    (fun p => jsonStr p.1.data ++ ':' :: jsonStr p.2)) ++ ['\x7d']

/-- UTF-8 encoding of one character. -/
def utf8Char (c : Char) : List Nat :=
  let n := c.toNat
  if n < 128 then [n]
  else if n < 2048 then [192 + n / 64, 128 + n % 64]
  else if n < 65536 then [224 + n / 4096, 128 + n / 64 % 64, 128 + n % 64]
  else [240 + n / 262144, 128 + n / 4096 % 64, 128 + n / 64 % 64, 128 + n % 64]

/-- UTF-8 encoding of a text as a byte list. -/
def utf8 (l : List Char) : List Nat := l.flatMap utf8Char

/-- Truncate to 32 bits. -/
def w32 (n : Nat) : Nat := n % 4294967296

/-- 32-bit right rotation. -/
def rotr (n x : Nat) : Nat := w32 ((x >>> n) ||| (x <<< (32 - n)))

/-- 32-bit complement. -/
def notW (x : Nat) : Nat := x ^^^ 4294967295

/-- SHA-256 round constants (FIPS 180-4, written in decimal). -/
def K256 : List Nat :=
  [1116352408, 1899447441, 3049323471, 3921009573, 961987163, 1508970993,
    2453635748, 2870763221, 3624381080, 310598401, 607225278, 1426881987,
    1925078388, 2162078206, 2614888103, 3248222580, 3835390401, 4022224774,
    264347078, 604807628, 770255983, 1249150122, 1555081692, 1996064986,
    2554220882, 2821834349, 2952996808, 3210313671, 3336571891, 3584528711,
    113926993, 338241895, 666307205, 773529912, 1294757372, 1396182291,
    1695183700, 1986661051, 2177026350, 2456956037, 2730485921, 2820302411,
    3259730800, 3345764771, 3516065817, 3600352804, 4094571909, 275423344,
    430227734, 506948616, 659060556, 883997877, 958139571, 1322822218,
    1537002063, 1747873779, 1955562222, 2024104815, 2227730452, 2361852424,
    2428436474, 2756734187, 3204031479, 3329325298]

/-- SHA-256 initial hash state (FIPS 180-4, written in decimal). -/
def H256 : List Nat :=
  [1779033703, 3144134277, 1013904242, 2773480762, 1359893119, 2600822924,
    528734635, 1541459225]

/-- Big-endian byte expansion of `n` on `count` bytes. -/
def beBytes (count n : Nat) : List Nat :=
  (List.range count).map (fun i => n >>> (8 * (count - 1 - i)) % 256)

/-- SHA-256 message padding. -/
def sha256Pad (msg : List Nat) : List Nat :=
  let len := msg.length
  let zeros := (119 - (len % 64)) % 64
  msg ++ 128 :: List.replicate zeros 0 ++ beBytes 8 (8 * len)

/-- Big-endian 32-bit words from a byte list. -/
def toWords : List Nat → List Nat
  | b0 :: b1 :: b2 :: b3 :: t =>
    (b0 * 16777216 + b1 * 65536 + b2 * 256 + b3) :: toWords t
  | _ => []

/-- Message-schedule extension from 16 to 64 words. -/
def extendW (w : List Nat) : Nat → List Nat
  | 0 => w
  | k + 1 =>
    let n := w.length
    let w2 := w.getD (n - 2) 0
    let w7 := w.getD (n - 7) 0
    let w15 := w.getD (n - 15) 0
    let w16 := w.getD (n - 16) 0
    let s0 := rotr 7 w15 ^^^ rotr 18 w15 ^^^ (w15 >>> 3)
    let s1 := rotr 17 w2 ^^^ rotr 19 w2 ^^^ (w2 >>> 10)
    extendW (w ++ [w32 (w16 + s0 + w7 + s1)]) k

/-- One SHA-256 round on the eight-word working state. -/
def sha256Round (st : List Nat) (wk : Nat × Nat) : List Nat :=
  match st with
  | [a, b, c, d, e, f, g, h] =>
    let s1 := rotr 6 e ^^^ rotr 11 e ^^^ rotr 25 e
    let ch := (e &&& f) ^^^ (notW e &&& g)
    let t1 := w32 (h + s1 + ch + wk.2 + wk.1)
    let s0 := rotr 2 a ^^^ rotr 13 a ^^^ rotr 22 a
    let mj := (a &&& b) ^^^ (a &&& c) ^^^ (b &&& c)
    let t2 := w32 (s0 + mj)
    [w32 (t1 + t2), a, b, c, w32 (d + t1), e, f, g]
  | other => other

/-- Compress one 64-byte chunk into the hash state. -/
def sha256Compress (h : List Nat) (chunk : List Nat) : List Nat :=
  let w := extendW (toWords chunk) 48
  let st := (w.zip K256).foldl sha256Round h
  (h.zip st).map (fun p => w32 (p.1 + p.2))

/-- Split into 64-byte chunks (fuel-driven structural recursion). -/
def chunks64Go : Nat → List Nat → List (List Nat)
  | 0, _ => []
  | _ + 1, [] => []
  | n + 1, l => l.take 64 :: chunks64Go n (l.drop 64)

/-- Split a padded message into 64-byte chunks. -/
def chunks64 (l : List Nat) : List (List Nat) := chunks64Go l.length l

/-- SHA-256 digest (32 bytes) of a byte list. -/
def sha256 (msg : List Nat) : List Nat :=
  ((chunks64 (sha256Pad msg)).foldl sha256Compress H256).flatMap (beBytes 4)

/-- Lower-case hexadecimal digest string. -/
def sha256Hex (msg : List Nat) : String :=
  String.mk ((sha256 msg).flatMap (fun b => [hexDigit (b / 16), hexDigit (b % 16)]))

/-- `make_cache_key` from `src/lattice/cache.py`: the strings the pipeline
passes are never `None`, so the fields are plain strings here. -/
def make_cache_key (prompt : List Char) (provider model band : String) : String :=
  let payload : List (String × List Char) :=
    [("prompt", stripL prompt), ("provider", lowerL provider.data),
      ("model", model.data), ("band", band.data)]
  let encoded := jsonObjSortedCompact payload
  "exact:" ++ sha256Hex (utf8 encoded)

/-! ## Error taxonomy — `src/lattice/errors.py` -/

/-- The `error_type` strings of the Lattice error classes. -/
inductive ErrType where
  | providerTimeout : ErrType
  | providerRateLimit : ErrType
  | providerValidation : ErrType
  | providerInternal : ErrType
  | configuration : ErrType
  | rateLimit : ErrType
  | internalError : ErrType
deriving DecidableEq, Repr

/-- A raised `LatticeError`: kind, message and optional provider. -/
structure LErr where
  etype : ErrType
  message : String
  provider : Option String
deriving DecidableEq, Repr

/-- The error kinds the candidate loop recovers from
(`ProviderTimeoutError, ProviderRateLimitError, ProviderInternalError`). -/
def recoverable (e : ErrType) : Bool :=
  e = .providerTimeout ∨ e = .providerRateLimit ∨ e = .providerInternal

/-! ## Response schema — `src/lattice/schemas.py` -/

/-- `UsageStats`. -/
structure UsageStats where
  input_tokens : ℤ
  output_tokens : ℤ
  total_tokens : ℤ
deriving DecidableEq, Repr

/-- `RoutingDecision`. -/
structure RoutingDecision where
  reason : String
  candidates : List Candidate
  chosen : Candidate
deriving DecidableEq, Repr

/-- `CompletionResponse` (`CostInfo` has exactly the fields of
`CostBreakdown`, so the latter is reused). -/
structure CompletionResponse where
  text : List Char
  provider : String
  model : String
  band : Option String
  latency_ms : ℚ
  usage : UsageStats
  cost : CostBreakdown
  tags : List String
  routing : RoutingDecision
deriving DecidableEq, Repr

/-- `CompletionRequest`.  `metadata` is the opaque caller dictionary; the
adapter abstraction below never reads it, mirroring that the pipeline passes
it only into `adapter.plan`. -/
structure CompletionRequest where
  prompt : List Char
  band : Option String
  model : Option String
  max_tokens : Option ℤ
  temperature : Option ℚ
  metadata : List (String × List Char)
deriving DecidableEq, Repr

/-! ## Metrics — `src/lattice/metrics.py` (`InMemoryMetricsBackend`) -/

/-- The counters of `InMemoryMetricsBackend`. -/
structure Metrics where
  total_requests : Nat
  total_cost : ℚ
  total_input_tokens : ℤ
  total_output_tokens : ℤ
  latency_sum_ms : ℚ
  latency_samples : Nat
  cache_hits : Nat
  cache_misses : Nat
  pii_detected : Nat
  providers : List (String × Nat)
  models : List (String × Nat)
  bands : List (String × Nat)
deriving DecidableEq, Repr

/-- `_increment_bucket`: bump a histogram key, ignoring falsy keys. -/
def bumpBucket (bucket : List (String × Nat)) (key : String) : List (String × Nat) :=
  if key = "" then bucket
  else
    match bucket.lookup key with
    | some _ => bucket.map (fun p => if p.1 = key then (p.1, p.2 + 1) else p)
    | none => bucket ++ [(key, 1)]

/-- `increment_requests` of the in-memory backend. -/
def increment_requests (m : Metrics) (provider model : String) (band : Option String)
    (latency : ℚ) (inputTokens outputTokens : ℤ) (totalCost : ℚ)
    (piiTagsCount : Nat) : Metrics :=
  { total_requests := m.total_requests + 1,
    total_cost := m.total_cost + totalCost,
    total_input_tokens := m.total_input_tokens + inputTokens,
    total_output_tokens := m.total_output_tokens + outputTokens,
    latency_sum_ms := m.latency_sum_ms + latency,
    latency_samples := m.latency_samples + 1,
    cache_hits := m.cache_hits,
    cache_misses := m.cache_misses,
    pii_detected := if piiTagsCount > 0 then m.pii_detected + 1 else m.pii_detected,
    providers := bumpBucket m.providers provider,
    models := bumpBucket m.models model,
    bands := match band with | none => m.bands | some b => bumpBucket m.bands b }

/-- `increment_cache_hit`. -/
def increment_cache_hit (m : Metrics) : Metrics :=
  { m with cache_hits := m.cache_hits + 1 }

/-- `increment_cache_miss`. -/
def increment_cache_miss (m : Metrics) : Metrics :=
  { m with cache_misses := m.cache_misses + 1 }

/-! ## Pipeline environment — collaborators of `route_completion` -/

/-- What one adapter call (`adapter.plan` + `adapter.execute`) produced.
`latency_ms` is the value the pipeline ends up with
(`float(raw_result.get("latency_ms") or measured_latency)`); wall-clock
measurement is environment data. -/
structure ExecResult where
  output : List Char
  prompt_tokens : ℤ
  completion_tokens : ℤ
  latency_ms : ℚ
deriving DecidableEq, Repr

/-- An adapter call either returns a result or raises a `LatticeError`. -/
inductive ExecOutcome where
  | ok : ExecResult → ExecOutcome
  | raise : LErr → ExecOutcome
deriving DecidableEq, Repr

/-- What sits in the shared store under a cache key, as seen by
`CacheClient.get` plus the pipeline's schema validation:  absent, value that
is not JSON, JSON that is not an object, an object rejected by
`CompletionResponse.model_validate`, or a valid response. -/
inductive CacheFetch where
  | absent : CacheFetch
  | badJson : CacheFetch
  | nonObject : CacheFetch
  | badSchema : CacheFetch
  | good : CompletionResponse → CacheFetch
deriving DecidableEq, Repr

/-- `CacheClient.get` (returns `none` for absent / non-JSON / non-dict values)
composed with `CompletionResponse.model_validate` (rejects bad schemas):
only a valid cached response survives. -/
def decodeCached : CacheFetch → Option CompletionResponse
  | .good r => some r
  | _ => none

/-- The collaborators `route_completion` calls, frozen for one request. -/
structure Env where
  registry : BandsRegistry
  pricing : PricingConfig
  registered : String → Bool
  exec : String → String → ExecOutcome
  cacheEnabled : Bool
  cacheGet : String → CacheFetch
  alriTag : String → String

/-- Modelled from the spec: `compute_alri_tag` lives in
`src/lattice/router/__init__.py`, which is not part of the sources; the spec
(§3, §4.4, invariant 5) draws every response tag from the fixed taxonomy, so
the missing function is carried as an environment field and the theorems that
depend on it assume its output lies in `TAXONOMY`. -/
def alriTagOf (env : Env) (band : String) : String := env.alriTag band

/-- `band or "auto"` — the band label recorded in metrics. -/
def bandOrAuto (band : Option String) : String :=
  match band with
  | none => "auto"
  | some b => if b = "" then "auto" else b

/-- Python truthiness of the optional request band. -/
def bandTruthy (band : Option String) : Bool :=
  match band with
  | none => false
  | some b => ¬ b = ""

/-- `_routing_reason` from `src/lattice/router/completion.py`. -/
def routing_reason (req : CompletionRequest) (band : String) : String :=
  match req.model with
  | some m => "model override='" ++ m ++ "'"
  | none =>
    "band='" ++ band ++ "' (" ++ (if bandTruthy req.band then "user" else "auto") ++ ")"

/-- Per-request context threaded through the candidate loop. -/
structure LoopCtx where
  prompt : List Char
  resolvedBand : String
  reason : String
  promptTags : List String
  routingCandidates : List Candidate
  cacheEnabled : Bool
  lookup : String → Option CompletionResponse
  registered : String → Bool
  exec : String → String → ExecOutcome
  pricing : PricingConfig
  alriTag : String → String

/-- Lines 213–251 of `src/lattice/router/completion.py`: the response built
after a successful adapter call. -/
def mkSuccessResponse (P : LoopCtx) (c : Candidate) (r : ExecResult) :
    CompletionResponse :=
  let totalTokens := r.prompt_tokens + r.completion_tokens
  let cost := compute_costs P.pricing c.provider c.model
    (some r.prompt_tokens) (some r.completion_tokens)
  { text := r.output,
    provider := c.provider,
    model := c.model,
    band := some P.resolvedBand,
    latency_ms := r.latency_ms,
    usage := { input_tokens := r.prompt_tokens,
               output_tokens := r.completion_tokens,
               total_tokens := totalTokens },
    cost := cost,
    tags := sortDedup (P.promptTags ++ detect_tags r.output ++ [P.alriTag P.resolvedBand]),
    routing := { reason := P.reason, candidates := P.routingCandidates, chosen := c } }

/-- Lines 168–172: the cached response re-tagged on a cache hit. -/
def mkHydrated (P : LoopCtx) (cached : CompletionResponse) : CompletionResponse :=
  { cached with
    tags := sortDedup (P.promptTags ++ detect_tags cached.text ++ cached.tags) }

/-- Lines 265–277: metrics recorded after a non-cached success (`cache_checked`
is true exactly when the cache client exists, since the loop ran). -/
def successMetrics (P : LoopCtx) (m : Metrics) (resp : CompletionResponse) : Metrics :=
  let m1 := if P.cacheEnabled then increment_cache_miss m else m
  increment_requests m1 resp.provider resp.model (some (bandOrAuto resp.band))
    resp.latency_ms resp.usage.input_tokens resp.usage.output_tokens
    resp.cost.total_cost resp.tags.length

/-- Lines 173–183: metrics recorded on a cache hit. -/
def hitMetrics (m : Metrics) (hydrated : CompletionResponse) : Metrics :=
  increment_requests (increment_cache_hit m) hydrated.provider hydrated.model
    (some (bandOrAuto hydrated.band)) hydrated.latency_ms
    hydrated.usage.input_tokens hydrated.usage.output_tokens
    hydrated.cost.total_cost hydrated.tags.length

/-- Lines 145–263 of `src/lattice/router/completion.py`: the candidate loop.
Each candidate is checked against the adapter registry, then the cache, then
executed; recoverable errors are remembered and the loop continues; when all
candidates failed the last error's provider surfaces under
`provider_internal`. -/
def runCands (P : LoopCtx) (m : Metrics) :
    List Candidate → Option LErr → Except LErr (CompletionResponse × Metrics)
  | [], lastErr =>
    .error { etype := .providerInternal,
             message := "All provider candidates failed.",
             provider := lastErr.bind (·.provider) }
  | c :: rest, _lastErr =>
    if P.registered c.provider then
      match P.lookup (make_cache_key P.prompt c.provider c.model P.resolvedBand) with
      | some cached =>
        let hydrated := mkHydrated P cached
        .ok (hydrated, hitMetrics m hydrated)
      | none =>
        match P.exec c.provider c.model with
        | .ok r =>
          let resp := mkSuccessResponse P c r
          .ok (resp, successMetrics P m resp)
        | .raise e =>
          if recoverable e.etype then runCands P m rest (some e)
          else .error e
    else
      .error { etype := .configuration,
               message := "Provider adapter '" ++ c.provider ++ "' not registered.",
               provider := none }

/-- The loop context derived from the environment and request data. -/
def mkCtx (pricing : PricingConfig)
    (registered : String → Bool) (exec : String → String → ExecOutcome)
    (cacheEnabled : Bool) (lookupF : String → Option CompletionResponse)
    (alri : String → String) (prompt : List Char) (resolvedBand reason : String)
    (promptTags : List String) (cands : List Candidate) : LoopCtx :=
  { prompt := prompt, resolvedBand := resolvedBand, reason := reason,
    promptTags := promptTags, routingCandidates := cands,
    cacheEnabled := cacheEnabled,
    lookup := fun k => if cacheEnabled then lookupF k else none,
    registered := registered, exec := exec, pricing := pricing, alriTag := alri }

/-- `route_completion` with the collaborator functions passed explicitly. -/
def routeCore (reg : BandsRegistry) (pricing : PricingConfig)
    (registered : String → Bool) (exec : String → String → ExecOutcome)
    (cacheEnabled : Bool) (lookupF : String → Option CompletionResponse)
    (alri : String → String) (req : CompletionRequest) (m : Metrics) :
    Except LErr (CompletionResponse × Metrics) :=
  let prompt := stripL req.prompt
  if prompt.isEmpty then
    .error { etype := .providerValidation, message := "prompt is required",
             provider := none }
  else
    match resolve_band reg (normalize_band req.band) with
    | none =>
      .error { etype := .internalError, message := "bands registry is empty",
               provider := none }
    | some resolvedBand =>
      let reason := routing_reason req resolvedBand
      let promptTags := detect_tags prompt
      match req.model with
      | some mdl =>
        match find_provider_for_model reg mdl with
        | none =>
          .error { etype := .providerValidation,
                   message := "Unknown model override '" ++ mdl ++
                     "'. Add it to the band config.",
                   provider := none }
        | some p =>
          runCands (mkCtx pricing registered exec cacheEnabled lookupF alri
            prompt resolvedBand reason promptTags [⟨p, mdl⟩]) m [⟨p, mdl⟩] none
      | none =>
        match (get_band reg resolvedBand).orElse (fun _ => get_default_band reg) with
        | none =>
          .error { etype := .internalError, message := "bands registry is empty",
                   provider := none }
        | some cfg =>
          if cfg.models.isEmpty then
            .error { etype := .configuration,
                     message := "No providers configured for band '" ++
                       cfg.name ++ "'.",
                     provider := none }
          else
            runCands (mkCtx pricing registered exec cacheEnabled lookupF alri
              prompt resolvedBand reason promptTags cfg.models) m cfg.models none

/-- `route_completion` from `src/lattice/router/completion.py`. -/
def route_completion (env : Env) (req : CompletionRequest) (m : Metrics) :
    Except LErr (CompletionResponse × Metrics) :=
  routeCore env.registry env.pricing env.registered env.exec env.cacheEnabled
    (fun k => decodeCached (env.cacheGet k)) env.alriTag req m

/-! ## Projections and auxiliary observers -/

/-- The response of a pipeline run, when it succeeded. -/
def respOf (x : Except LErr (CompletionResponse × Metrics)) : Option CompletionResponse :=
  match x with
  | .ok (r, _) => some r
  | .error _ => none

/-- The metrics state after a successful pipeline run. -/
def metricsOf (x : Except LErr (CompletionResponse × Metrics)) : Option Metrics :=
  match x with
  | .ok (_, m) => some m
  | .error _ => none

/-- The error of a failed pipeline run. -/
def errOf (x : Except LErr (CompletionResponse × Metrics)) : Option LErr :=
  match x with
  | .ok _ => none
  | .error e => some e

/-- The `last_error` the loop holds after scanning the candidate list: the
error of the latest candidate whose adapter call raised. -/
def lastRaisedErr (exec : String → String → ExecOutcome) :
    List Candidate → Option LErr → Option LErr
  | [], last => last
  | c :: rest, last =>
    lastRaisedErr exec rest
      (match exec c.provider c.model with
        | .raise e => some e
        | .ok _ => last)

/-- A fresh `InMemoryMetricsBackend` state. -/
def zeroMetrics : Metrics :=
  { total_requests := 0, total_cost := 0, total_input_tokens := 0,
    total_output_tokens := 0, latency_sum_ms := 0, latency_samples := 0,
    cache_hits := 0, cache_misses := 0, pii_detected := 0,
    providers := [], models := [], bands := [] }

/-! ## Concrete fixtures for witnesses and counterexamples -/

/-- A three-band registry with default band `mid`, in the shape of
`bands.json`. -/
def regFix : BandsRegistry :=
  { default_band := "mid",
    bands :=
      [("low", { name := "low", models := [⟨"stub", "stub-echo-1"⟩] }),
        ("mid", { name := "mid", models := [⟨"stub", "s1"⟩, ⟨"backup", "s2"⟩] }),
        ("high", { name := "high", models := [⟨"openai", "gpt-4o"⟩] })] }

/-- An empty pricing table (every lookup misses, costs are zeroed). -/
def pricingFix : PricingConfig :=
  { currency := "USD", version := none, providers := [] }

/-- An adapter result used by success-path fixtures. -/
def execOkFix : ExecResult :=
  { output := "ok".data, prompt_tokens := 2, completion_tokens := 1,
    latency_ms := 5 }

/-- A cached response with non-zero usage and cost, as a previous success
would have stored it. -/
def cachedRespFix : CompletionResponse :=
  { text := "Hello!".data, provider := "stub", model := "s1",
    band := some "mid", latency_ms := 7,
    usage := { input_tokens := 5, output_tokens := 7, total_tokens := 12 },
    cost := { currency := "USD", provider := "stub", model := "s1",
              input_tokens := 5, output_tokens := 7,
              input_cost := 16/100, output_cost := 10/100,
              total_cost := 26/100, pricing_version := none },
    tags := [],
    routing := { reason := "band='mid' (user)", candidates := [⟨"stub", "s1"⟩],
                 chosen := ⟨"stub", "s1"⟩ } }

/-- Environment for the cache-hit run (shared store always returns the cached
response; the constant function keeps key hashing out of kernel reduction). -/
def envHit : Env :=
  { registry := regFix, pricing := pricingFix,
    registered := fun _ => true, exec := fun _ _ => .ok execOkFix,
    cacheEnabled := true, cacheGet := fun _ => .good cachedRespFix,
    alriTag := fun _ => "PHI_MEDICAL" }

/-- Environment with the cache disabled and every adapter succeeding. -/
def envOk : Env :=
  { registry := regFix, pricing := pricingFix,
    registered := fun _ => true, exec := fun _ _ => .ok execOkFix,
    cacheEnabled := false, cacheGet := fun _ => .absent,
    alriTag := fun _ => "PHI_MEDICAL" }

/-- Environment in which every adapter call fails recoverably: `stub` times
out and `backup` hits the rate limit. -/
def envFail : Env :=
  { registry := regFix, pricing := pricingFix,
    registered := fun _ => true,
    exec := fun p _ =>
      if p = "stub" then
        .raise { etype := .providerTimeout, message := "timed out",
                 provider := some "stub" }
      else
        .raise { etype := .providerRateLimit, message := "429",
                 provider := some "backup" },
    cacheEnabled := false, cacheGet := fun _ => .absent,
    alriTag := fun _ => "PHI_MEDICAL" }

/-- A minimal request: prompt only. -/
def reqHi : CompletionRequest :=
  { prompt := "Say hi".data, band := none, model := none,
    max_tokens := none, temperature := none, metadata := [] }

/-- The 5,000-character prompt of spec scenario S2: the risk words plus
padding. -/
def bigPrompt : List Char :=
  "analyze compliance architecture ".data ++ List.replicate 4968 'x'

/-- The S2 request: the big prompt, no band, no model. -/
def reqBig : CompletionRequest :=
  { prompt := bigPrompt, band := none, model := none,
    max_tokens := none, temperature := none, metadata := [] }

/-- Forced-model request for the C4 witness. -/
def reqForced : CompletionRequest :=
  { prompt := "Say hi".data, band := some "low", model := some "GPT-4O",
    max_tokens := none, temperature := none, metadata := [] }

/-- Environment whose shared store holds undecodable bytes under every key. -/
def envBadJson : Env :=
  { registry := regFix, pricing := pricingFix,
    registered := fun _ => true, exec := fun _ _ => .ok execOkFix,
    cacheEnabled := true, cacheGet := fun _ => .badJson,
    alriTag := fun _ => "PHI_MEDICAL" }

/-- Pricing fixture for the C8 counterexample: 0.004 USD per million tokens
each way. -/
def pricingTiny : PricingConfig :=
  { currency := "USD", version := none,
    providers := [("p", [("m", { unit := .per_million, input := 1/250,
                                  output := 1/250 })])] }

/-- The `mid` band configuration of `regFix`, spelled out for the C3
witness. -/
def midCfg : BandConfig :=
  { name := "mid", models := [⟨"stub", "s1"⟩, ⟨"backup", "s2"⟩] }

/-- Request naming a model unknown to any band. -/
def reqUnknown : CompletionRequest :=
  { prompt := "Say hi".data, band := none, model := some "nope",
    max_tokens := none, temperature := none, metadata := [] }

/-- The response `route_completion envOk reqHi zeroMetrics` produces, written
out for the C5 and C2 witnesses. -/
def respFix : CompletionResponse :=
  { text := "ok".data, provider := "stub", model := "s1", band := some "mid",
    latency_ms := 5,
    usage := { input_tokens := 2, output_tokens := 1, total_tokens := 3 },
    cost := { currency := "USD", provider := "stub", model := "s1",
              input_tokens := 2, output_tokens := 1,
              input_cost := 0, output_cost := 0, total_cost := 0,
              pricing_version := none },
    tags := ["PHI_MEDICAL"],
    routing := { reason := "band='mid' (auto)",
                 candidates := [⟨"stub", "s1"⟩, ⟨"backup", "s2"⟩],
                 chosen := ⟨"stub", "s1"⟩ } }

theorem lexLt_irrefl (l : List Char) : lexLt l l = false := by
  induction l with
  | nil => rfl
  | cons a as ih => simp [lexLt, ih]

theorem char_toNat_inj {a b : Char} (h : a.toNat = b.toNat) : a = b := by
  have hv : a.val = b.val := UInt32.toNat.inj h
  exact Char.ext hv

theorem lexLt_trans {a b c : List Char} (hab : lexLt a b = true)
    (hbc : lexLt b c = true) : lexLt a c = true := by
  induction a generalizing b c with
  | nil =>
    cases b with
    | nil => simp [lexLt] at hab
    | cons y ys =>
      cases c with
      | nil => simp [lexLt] at hbc
      | cons z zs => simp [lexLt]
  | cons x xs ih =>
    cases b with
    | nil => simp [lexLt] at hab
    | cons y ys =>
      cases c with
      | nil => simp [lexLt] at hbc
      | cons z zs =>
        simp only [lexLt] at hab hbc ⊢
        by_cases h1 : x.toNat < y.toNat
        · by_cases h3 : y.toNat < z.toNat
          · have hxz : x.toNat < z.toNat := Nat.lt_trans h1 h3
            simp [hxz]
          · by_cases h4 : y.toNat = z.toNat
            · have hxz : x.toNat < z.toNat := by omega
              simp [hxz]
            · simp [h3, h4] at hbc
        · by_cases h2 : x.toNat = y.toNat
          · simp [h1, h2] at hab
            by_cases h3 : y.toNat < z.toNat
            · have hxz : x.toNat < z.toNat := by omega
              simp [hxz]
            · by_cases h4 : y.toNat = z.toNat
              · simp [h3, h4] at hbc
                have hlt : ¬ x.toNat < z.toNat := by omega
                have heq : x.toNat = z.toNat := by omega
                simp [hlt, heq]
                exact ih hab hbc
              · simp [h3, h4] at hbc
          · simp [h1, h2] at hab

theorem lexLt_connex {a b : List Char} (h : a ≠ b) :
    lexLt a b = true ∨ lexLt b a = true := by
  induction a generalizing b with
  | nil =>
    cases b with
    | nil => exact absurd rfl h
    | cons y ys => left; simp [lexLt]
  | cons x xs ih =>
    cases b with
    | nil => right; simp [lexLt]
    | cons y ys =>
      rcases Nat.lt_trichotomy x.toNat y.toNat with h1 | h1 | h1
      · left; simp [lexLt, h1]
      · have hxy : x = y := char_toNat_inj h1
        subst hxy
        have hne : xs ≠ ys := fun hsub => h (by rw [hsub])
        rcases ih hne with h3 | h3
        · left; simp [lexLt, Nat.lt_irrefl, h3]
        · right; simp [lexLt, Nat.lt_irrefl, h3]
      · right; simp [lexLt, h1]

theorem strLt_irrefl (s : String) : strLt s s = false := lexLt_irrefl s.data

theorem strLt_trans {a b c : String} (hab : strLt a b = true)
    (hbc : strLt b c = true) : strLt a c = true := lexLt_trans hab hbc

theorem strLt_connex {a b : String} (h : a ≠ b) :
    strLt a b = true ∨ strLt b a = true := by
  have hd : a.data ≠ b.data := by
    intro hd
    exact h (by cases a; cases b; exact congrArg String.mk hd)
  exact lexLt_connex hd

theorem strLt_ne {a b : String} (h : strLt a b = true) : a ≠ b := by
  intro he; rw [he] at h; rw [strLt_irrefl] at h; exact absurd h (by simp)

theorem mem_insertSorted {a x : String} {l : List String} :
    a ∈ insertSorted x l ↔ a = x ∨ a ∈ l := by
  induction l with
  | nil => simp [insertSorted]
  | cons y ys ih =>
    simp only [insertSorted]
    split_ifs with h1 h2
    · simp
    · subst h2; simp only [List.mem_cons]; tauto
    · simp [ih]; tauto

theorem mem_sortDedup {a : String} {l : List String} :
    a ∈ sortDedup l ↔ a ∈ l := by
  induction l with
  | nil => simp [sortDedup]
  | cons x xs ih =>
    simp only [sortDedup, List.foldr] at ih ⊢
    rw [mem_insertSorted, ih, List.mem_cons]

theorem insertSorted_sorted {x : String} {l : List String} (h : SortedStr l) :
    SortedStr (insertSorted x l) := by
  induction l with
  | nil => exact List.chain'_singleton x
  | cons y ys ih =>
    simp only [insertSorted]
    rcases List.chain'_cons'.mp h with ⟨hy, hys⟩
    split_ifs with h1 h2
    · exact List.chain'_cons'.mpr ⟨fun z hz => by cases hz; exact h1, h⟩
    · exact h
    · have h3 : strLt y x = true := by
        rcases strLt_connex (show x ≠ y from h2) with h3 | h3
        · exact absurd h3 h1
        · exact h3
      refine List.chain'_cons'.mpr ⟨?_, ih hys⟩
      intro z hz
      rcases ys with _ | ⟨w, ws⟩
      · simp [insertSorted] at hz; subst hz; exact h3
      · simp only [insertSorted] at hz
        split_ifs at hz with h4 h5
        · simp at hz; subst hz; exact h3
        · simp at hz; subst hz; exact hy w rfl
        · simp at hz; subst hz; exact hy w rfl

theorem sortDedup_sorted (l : List String) : SortedStr (sortDedup l) := by
  induction l with
  | nil => exact List.chain'_nil
  | cons x xs ih => exact insertSorted_sorted ih

theorem sortedStr_pairwise {l : List String} (h : SortedStr l) :
    List.Pairwise (fun a b => strLt a b = true) l := by
  haveI : IsTrans String (fun a b => strLt a b = true) :=
    ⟨fun _ _ _ hab hbc => strLt_trans hab hbc⟩
  exact List.chain'_iff_pairwise.mp h

theorem sortedStr_nodup {l : List String} (h : SortedStr l) : l.Nodup := by
  have hp := sortedStr_pairwise h
  exact hp.imp (fun hab => strLt_ne hab)

theorem detect_tags_subset_taxonomy (text : List Char) :
    ∀ t ∈ detect_tags text, t ∈ TAXONOMY := by
  intro t ht
  unfold detect_tags at ht
  split_ifs at ht <;> simp_all [mem_sortDedup, TAXONOMY] <;> tauto

theorem detect_tags_sorted (text : List Char) : SortedStr (detect_tags text) := by
  unfold detect_tags
  split_ifs <;> first
    | exact List.chain'_nil
    | exact sortDedup_sorted _

/-- FIPS 180-4 known-answer test: the model's SHA-256 agrees with the
standard on `"abc"`. -/
theorem sha256_known_answer_abc : sha256Hex (utf8 "abc".data) =
    "ba7816bf8f01cfea414140de5dae2223b00361a396177a9cb410ff61f20015ad" := by decide

/-- Canonical JSON check against
`json.dumps(payload, sort_keys=True, separators=(",", ":"))`. -/
theorem jsonObjSortedCompact_check : String.mk (jsonObjSortedCompact
    [("prompt", "Say hi".data), ("provider", "stub".data),
      ("model", "s1".data), ("band", "low".data)]) =
    "\x7b\"band\":\"low\",\"model\":\"s1\",\"prompt\":\"Say hi\",\"provider\":\"stub\"\x7d" := by decide

set_option maxRecDepth 10000 in
/-- End-to-end check of a cache key against the value
`hashlib.sha256` produces for the same payload. -/
theorem make_cache_key_check : make_cache_key "Say hi".data "stub" "s1" "low" =
    "exact:6638552352d7cfaf2191b4e648ca90be0afa21dea6dbf038b745aee8ec4fa3d2" := by decide

/-! ## Loop lemmas -/

theorem runCands_skip {P : LoopCtx} {m : Metrics} {c : Candidate}
    {rest : List Candidate} {last : Option LErr} {e : LErr}
    (hr : P.registered c.provider = true)
    (hlk : P.lookup (make_cache_key P.prompt c.provider c.model P.resolvedBand) = none)
    (he : P.exec c.provider c.model = .raise e)
    (hrec : recoverable e.etype = true) :
    runCands P m (c :: rest) last = runCands P m rest (some e) := by
  simp only [runCands, hr, hlk, he, hrec, if_true]

theorem runCands_all_fail {P : LoopCtx} {m : Metrics} (cands : List Candidate)
    (last : Option LErr)
    (hreg : ∀ c ∈ cands, P.registered c.provider = true)
    (hlk : ∀ c ∈ cands,
      P.lookup (make_cache_key P.prompt c.provider c.model P.resolvedBand) = none)
    (hexec : ∀ c ∈ cands,
      ∃ e, P.exec c.provider c.model = .raise e ∧ recoverable e.etype = true) :
    runCands P m cands last =
      .error { etype := .providerInternal,
               message := "All provider candidates failed.",
               provider := (lastRaisedErr P.exec cands last).bind (·.provider) } := by
  induction cands generalizing last with
  | nil => simp [runCands, lastRaisedErr]
  | cons c rest ih =>
    obtain ⟨e, he, hrec⟩ := hexec c (List.mem_cons_self c rest)
    rw [runCands_skip (hreg c (List.mem_cons_self c rest))
      (hlk c (List.mem_cons_self c rest)) he hrec]
    rw [ih (some e) (fun x hx => hreg x (List.mem_cons_of_mem c hx))
      (fun x hx => hlk x (List.mem_cons_of_mem c hx))
      (fun x hx => hexec x (List.mem_cons_of_mem c hx))]
    simp [lastRaisedErr, he]

theorem runCands_ok_cases {P : LoopCtx} {m : Metrics} {cands : List Candidate}
    {last : Option LErr} {r : CompletionResponse} {m' : Metrics}
    (h : runCands P m cands last = .ok (r, m')) :
    (∃ c cached, c ∈ cands ∧
      P.lookup (make_cache_key P.prompt c.provider c.model P.resolvedBand) =
        some cached ∧
      r = mkHydrated P cached ∧ m' = hitMetrics m r) ∨
    (∃ c res, c ∈ cands ∧ P.exec c.provider c.model = .ok res ∧
      r = mkSuccessResponse P c res ∧ m' = successMetrics P m r) := by
  induction cands generalizing last with
  | nil => simp [runCands] at h
  | cons c rest ih =>
    by_cases hr : P.registered c.provider = true
    · rcases hcl : P.lookup (make_cache_key P.prompt c.provider c.model P.resolvedBand)
        with _ | cached
      · rcases hex : P.exec c.provider c.model with res | e
        · simp only [runCands, hr, hcl, hex, if_true] at h
          injection h with h2
          injection h2 with hra hma
          right
          exact ⟨c, res, List.mem_cons_self c rest, hex, hra.symm,
            by rw [← hma, hra]⟩
        · by_cases hrec : recoverable e.etype = true
          · rw [runCands_skip hr hcl hex hrec] at h
            rcases ih h with ⟨c2, cached, hm2, hl2, hr2, hm2'⟩ |
                ⟨c2, res, hm2, hx2, hr2, hm2'⟩
            · exact Or.inl ⟨c2, cached, List.mem_cons_of_mem c hm2, hl2, hr2, hm2'⟩
            · exact Or.inr ⟨c2, res, List.mem_cons_of_mem c hm2, hx2, hr2, hm2'⟩
          · simp only [runCands, hr, hcl, hex, hrec, if_true, Bool.false_eq_true,
              if_false] at h
            cases h
      · simp only [runCands, hr, hcl, if_true] at h
        injection h with h2
        injection h2 with hra hma
        exact Or.inl ⟨c, cached, List.mem_cons_self c rest, hcl, hra.symm,
          by rw [← hma, hra]⟩
    · simp only [runCands, hr] at h
      simp at hr
      simp [hr] at h

theorem resolve_band_of_ne_nil {reg : BandsRegistry} (h : reg.bands ≠ [])
    (x : Option String) : ∃ b, resolve_band reg x = some b := by
  have hd : ∃ cfg, get_default_band reg = some cfg := by
    unfold get_default_band
    rcases hb : get_band reg reg.default_band with _ | cfg
    · rcases hl : reg.bands with _ | ⟨p, t⟩
      · exact absurd hl h
      · exact ⟨p.2, by simp [Option.orElse, hb, hl]⟩
    · exact ⟨cfg, by simp [Option.orElse, hb]⟩
  obtain ⟨cfg, hcfg⟩ := hd
  unfold resolve_band
  rcases x with _ | b
  · exact ⟨cfg.name, by simp [hcfg]⟩
  · rcases hg : get_band reg b with _ | c
    · exact ⟨cfg.name, by simp [hg, hcfg]⟩
    · exact ⟨c.name, by simp [hg]⟩

/-- Destructuring a successful pipeline run down to its candidate loop. -/
theorem route_ok_destruct {env : Env} {req : CompletionRequest} {m : Metrics}
    {r : CompletionResponse} {m' : Metrics}
    (h : route_completion env req m = .ok (r, m')) :
    ∃ rb cands,
      resolve_band env.registry (normalize_band req.band) = some rb ∧
      runCands (mkCtx env.pricing env.registered env.exec env.cacheEnabled
          (fun k => decodeCached (env.cacheGet k)) env.alriTag
          (stripL req.prompt) rb (routing_reason req rb)
          (detect_tags (stripL req.prompt)) cands) m cands none = .ok (r, m') ∧
      ((∃ mdl p, req.model = some mdl ∧
          find_provider_for_model env.registry mdl = some p ∧ cands = [⟨p, mdl⟩]) ∨
        (req.model = none ∧ ∃ cfg,
          (get_band env.registry rb).orElse (fun _ => get_default_band env.registry) =
            some cfg ∧ cands = cfg.models)) := by
  simp only [route_completion, routeCore] at h
  cases hp : (stripL req.prompt).isEmpty with
  | true => simp [hp] at h
  | false =>
    simp only [hp, Bool.false_eq_true, if_false] at h
    rcases hres : resolve_band env.registry (normalize_band req.band) with _ | rb <;>
      rw [hres] at h <;> dsimp only at h
    · cases h
    · rcases hmo : req.model with _ | mdl <;> rw [hmo] at h <;> dsimp only at h
      · rcases hcfg : (get_band env.registry rb).orElse
            (fun _ => get_default_band env.registry) with _ | cfg <;>
          rw [hcfg] at h <;> dsimp only at h
        · cases h
        · cases hemp : cfg.models.isEmpty with
          | true => simp [hemp] at h
          | false =>
            simp only [hemp, Bool.false_eq_true, if_false] at h
            exact ⟨rb, cfg.models, rfl, h, Or.inr ⟨rfl, cfg, hcfg, rfl⟩⟩
      · rcases hfp : find_provider_for_model env.registry mdl with _ | p <;>
          rw [hfp] at h
        · cases h
        · exact ⟨rb, [⟨p, mdl⟩], rfl, h, Or.inl ⟨mdl, p, rfl, hfp, rfl⟩⟩

/-! ## Rounding lemmas -/

theorem roundHalfEven_intCast (z : ℤ) : roundHalfEven (z : ℚ) = z := by
  simp only [roundHalfEven, Int.floor_intCast, sub_self]
  norm_num

theorem round8_zero : round8 0 = 0 := by
  have h : ((0 : ℤ) : ℚ) = (0 : ℚ) * 100000000 := by norm_num
  simp only [round8, ← h, roundHalfEven_intCast]
  norm_num

theorem abs_roundHalfEven_sub (x : ℚ) : |(roundHalfEven x : ℚ) - x| ≤ 1/2 := by
  simp only [roundHalfEven]
  have h0 : (⌊x⌋ : ℚ) ≤ x := Int.floor_le x
  have h1 : x < ⌊x⌋ + 1 := Int.lt_floor_add_one x
  split_ifs with ha hb hc
  · rw [abs_sub_comm, abs_of_nonneg (by linarith)]
    linarith
  · push_cast
    rw [abs_of_nonneg (by linarith)]
    linarith
  · have hx : x - ⌊x⌋ = 1/2 := le_antisymm (not_lt.mp hb) (not_lt.mp ha)
    rw [abs_sub_comm, abs_of_nonneg (by linarith)]
    linarith
  · have hx : x - ⌊x⌋ = 1/2 := le_antisymm (not_lt.mp hb) (not_lt.mp ha)
    push_cast
    rw [abs_of_nonneg (by linarith)]
    linarith

theorem abs_round8_sub (x : ℚ) : |round8 x - x| ≤ 1/200000000 := by
  have h := abs_roundHalfEven_sub (x * 100000000)
  have hx : round8 x - x = ((roundHalfEven (x * 100000000) : ℚ) - x * 100000000) / 100000000 := by
    simp only [round8]
    ring
  rw [hx, abs_div, abs_of_pos (by norm_num : (0 : ℚ) < 100000000)]
  rw [div_le_iff (by norm_num : (0 : ℚ) < 100000000)]
  linarith

theorem abs_sub_sub_le (x y z : ℚ) : |x - y - z| ≤ |x| + |y| + |z| := by
  have h1 : |x - y| ≤ |x| + |y| := by
    have h := abs_add x (-y)
    rw [abs_neg] at h
    simpa [sub_eq_add_neg] using h
  have h2 : |x - y - z| ≤ |x - y| + |z| := by
    have h := abs_add (x - y) (-z)
    rw [abs_neg] at h
    simpa [sub_eq_add_neg] using h
  linarith

theorem round8_grid_sum (a b : ℚ) : round8 (round8 a + round8 b) = round8 a + round8 b := by
  have hsum : (round8 a + round8 b) * 100000000 =
      ((roundHalfEven (a * 100000000) + roundHalfEven (b * 100000000) : ℤ) : ℚ) := by
    simp only [round8]
    push_cast
    ring
  calc round8 (round8 a + round8 b)
      = ((roundHalfEven ((round8 a + round8 b) * 100000000) : ℤ) : ℚ) / 100000000 := rfl
    _ = ((roundHalfEven ((roundHalfEven (a * 100000000) + roundHalfEven (b * 100000000) : ℤ) : ℚ) : ℤ) : ℚ) / 100000000 := by
        rw [hsum]
    _ = ((roundHalfEven (a * 100000000) + roundHalfEven (b * 100000000) : ℤ) : ℚ) / 100000000 := by
        rw [roundHalfEven_intCast]
    _ = round8 a + round8 b := by
        simp only [round8]
        push_cast
        ring

theorem round8_sum_bound (a b : ℚ) :
    |round8 (a + b) - round8 (round8 a + round8 b)| ≤ 1/100000000 := by
  rw [round8_grid_sum]
  have e1 := abs_round8_sub (a + b)
  have e2 := abs_round8_sub a
  have e3 := abs_round8_sub b
  have hd : round8 (a + b) - (round8 a + round8 b) =
      ((roundHalfEven ((a + b) * 100000000) - roundHalfEven (a * 100000000) -
        roundHalfEven (b * 100000000) : ℤ) : ℚ) / 100000000 := by
    simp only [round8]
    push_cast
    ring
  have hsplit : round8 (a + b) - (round8 a + round8 b) =
      (round8 (a + b) - (a + b)) - (round8 a - a) - (round8 b - b) := by ring
  have htri : |round8 (a + b) - (round8 a + round8 b)| ≤ 3/200000000 := by
    rw [hsplit]
    have h := abs_sub_sub_le (round8 (a + b) - (a + b)) (round8 a - a) (round8 b - b)
    have e2' : |round8 a - a| ≤ 1/200000000 := e2
    linarith
  set n : ℤ := roundHalfEven ((a + b) * 100000000) - roundHalfEven (a * 100000000) -
    roundHalfEven (b * 100000000) with hn
  have habs : |(n : ℚ)| ≤ 3/2 := by
    have : |(n : ℚ) / 100000000| ≤ 3/200000000 := by rw [← hd]; exact htri
    rw [abs_div, abs_of_pos (by norm_num : (0 : ℚ) < 100000000)] at this
    rw [div_le_iff (by norm_num : (0 : ℚ) < 100000000)] at this
    linarith
  have hint : |n| ≤ 1 := by
    have h2 : ((|n| : ℤ) : ℚ) < 2 := by
      rw [Int.cast_abs]
      linarith
    have h3 : |n| < 2 := by exact_mod_cast h2
    omega
  rw [hd, abs_div, abs_of_pos (by norm_num : (0 : ℚ) < 100000000)]
  rw [div_le_iff (by norm_num : (0 : ℚ) < 100000000)]
  have : ((|n| : ℤ) : ℚ) ≤ 1 := by exact_mod_cast hint
  rw [Int.cast_abs] at this
  norm_num
  linarith

/-! ## Claim theorems -/

/-- C7: for every prompt the complexity scorer's band choice follows the
spec's decision tree in order — length ≥ 4000 gives high, then the
high/low/low/mid cascade — with the legacy labels (`long_context`, `complex`,
`simple`, `moderate`) collapsing to high/high/low/mid under band
normalization. -/
theorem C7_choose_band_follows_spec_tree (score : ℚ) (prompt : List Char) :
    normalizeBandStr (choose_band score prompt) = specBandTree score prompt := by
  simp only [choose_band, specBandTree, LONG_CONTEXT_CHAR_THRESHOLD]
  split_ifs <;> decide

/-- C9: for every `(provider, model)` pair absent from the pricing table and
any token counts, `compute_costs` returns a breakdown with zero input, output
and total cost whose token fields equal the supplied counts; being a total
function, it never raises. -/
theorem C9_unknown_pricing_zeroed (cfg : PricingConfig) (provider model : String)
    (inputTokens outputTokens : Option ℤ)
    (h : get_model_pricing cfg provider model = none) :
    compute_costs cfg provider model inputTokens outputTokens =
      { currency := cfg.currency, provider := provider, model := model,
        input_tokens := inputTokens.getD 0, output_tokens := outputTokens.getD 0,
        input_cost := 0, output_cost := 0, total_cost := 0,
        pricing_version := cfg.version } := by
  simp [compute_costs, h]

theorem C9_unknown_pricing_zeroed_witness :
    get_model_pricing pricingFix "openai" "gpt-4o" = none ∧
    compute_costs pricingFix "openai" "gpt-4o" (some 3) (some 4) =
      { currency := "USD", provider := "openai", model := "gpt-4o",
        input_tokens := 3, output_tokens := 4,
        input_cost := 0, output_cost := 0, total_cost := 0,
        pricing_version := none } :=
  ⟨rfl, C9_unknown_pricing_zeroed pricingFix "openai" "gpt-4o" (some 3) (some 4) rfl⟩

/-- C8 (amended): `total_cost` is the rounding of the exact, pre-rounding sum
`raw_input + raw_output` to eight decimals; it therefore agrees with
`round(input_cost + output_cost, 8)` — the claim's statement over the rounded
components reported in the breakdown — only up to one unit in the eighth
decimal place, never more. -/
theorem C8_total_cost_rounding (cfg : PricingConfig) (provider model : String)
    (inputTokens outputTokens : Option ℤ) :
    (compute_costs cfg provider model inputTokens outputTokens).total_cost =
      round8 (rawInputCost cfg provider model inputTokens +
        rawOutputCost cfg provider model outputTokens) ∧
    |(compute_costs cfg provider model inputTokens outputTokens).total_cost -
      round8 ((compute_costs cfg provider model inputTokens outputTokens).input_cost +
        (compute_costs cfg provider model inputTokens outputTokens).output_cost)| ≤
      1/100000000 := by
  rcases hl : get_model_pricing cfg provider model with _ | pricing
  · constructor
    · simp [compute_costs, rawInputCost, rawOutputCost, hl, round8_zero]
    · simp only [compute_costs, hl]
      rw [show ((0 : ℚ) + 0) = 0 by norm_num, round8_zero]
      norm_num
  · constructor
    · simp [compute_costs, rawInputCost, rawOutputCost, hl]
    · simp only [compute_costs, hl]
      exact round8_sum_bound _ _

/-- C8 (counterexample): with a pricing entry of 0.004 per million tokens each
way and one token each way, the code's `total_cost` is `1e-8` while
`round(input_cost + output_cost, 8)` over the reported rounded components is
`0` — the claim's equation fails. -/
theorem C8_total_cost_counterexample :
    (compute_costs pricingTiny "p" "m" (some 1) (some 1)).total_cost ≠
      round8 ((compute_costs pricingTiny "p" "m" (some 1) (some 1)).input_cost +
        (compute_costs pricingTiny "p" "m" (some 1) (some 1)).output_cost) := by
  have hfind : get_model_pricing pricingTiny "p" "m" =
      some { unit := .per_million, input := 1/250, output := 1/250 } := rfl
  have hraw : ((1 : ℤ) : ℚ) * normalize_unit_price (1/250) .per_million =
      1/250000000 := by
    simp [normalize_unit_price]
    norm_num
  have hfloor0 : ⌊(1 : ℚ)/250000000 * 100000000⌋ = 0 := by
    norm_num
  have h1 : round8 ((1 : ℚ)/250000000) = 0 := by
    simp only [round8, roundHalfEven, hfloor0]
    norm_num
  have hfloor1 : ⌊((1 : ℚ)/250000000 + 1/250000000) * 100000000⌋ = 0 := by
    norm_num
  have h2 : round8 ((1 : ℚ)/250000000 + 1/250000000) = 1/100000000 := by
    simp only [round8, roundHalfEven, hfloor1]
    norm_num
  have hcc : compute_costs pricingTiny "p" "m" (some 1) (some 1) =
      { currency := "USD", provider := "p", model := "m",
        input_tokens := 1, output_tokens := 1,
        input_cost := 0, output_cost := 0, total_cost := 1/100000000,
        pricing_version := none } := by
    simp only [compute_costs, hfind]
    simp only [Option.getD, hraw]
    rw [h1, h2]
    rfl
  rw [hcc]
  dsimp only
  rw [show ((0 : ℚ) + 0) = 0 by norm_num, round8_zero]
  norm_num

/-- C6: the cache key is deterministic and excludes caller metadata.  Two
requests that agree on the stripped prompt — and may differ arbitrarily in
`metadata` and every other field — produce the same key for the same
(lower-cased) provider, model and band, and the key is exactly `"exact:"`
followed by the SHA-256 hex digest of the canonical JSON (keys sorted to
`band, model, prompt, provider`, compact separators) of that tuple. -/
theorem C6_cache_key_canonical (req1 req2 : CompletionRequest)
    (prov1 prov2 model band : String)
    (hp : stripL req1.prompt = stripL req2.prompt)
    (hpr : lowerL prov1.data = lowerL prov2.data) :
    make_cache_key req1.prompt prov1 model band =
      make_cache_key req2.prompt prov2 model band ∧
    make_cache_key req1.prompt prov1 model band =
      "exact:" ++ sha256Hex (utf8 (jsonObjSortedCompact
        [("prompt", stripL req1.prompt), ("provider", lowerL prov1.data),
          ("model", model.data), ("band", band.data)])) ∧
    sortPairsByKey
        [("prompt", stripL req1.prompt), ("provider", lowerL prov1.data),
          ("model", model.data), ("band", band.data)] =
      [("band", band.data), ("model", model.data),
        ("prompt", stripL req1.prompt), ("provider", lowerL prov1.data)] := by
  refine ⟨?_, rfl, rfl⟩
  unfold make_cache_key
  rw [hp, hpr]

theorem C6_cache_key_canonical_witness :
    stripL ("  Say hi " : String).data = stripL ("Say hi" : String).data ∧
    lowerL ("Stub" : String).data = lowerL ("sTUB" : String).data ∧
    make_cache_key ("  Say hi " : String).data "Stub" "s1" "mid" =
      make_cache_key ("Say hi" : String).data "sTUB" "s1" "mid" :=
  ⟨by decide, by decide,
    (C6_cache_key_canonical
      { prompt := ("  Say hi " : String).data, band := none, model := none,
        max_tokens := none, temperature := none,
        metadata := [("team", "alpha".data)] }
      { prompt := ("Say hi" : String).data, band := none, model := none,
        max_tokens := none, temperature := none, metadata := [] }
      "Stub" "sTUB" "s1" "mid" (by decide) (by decide)).1⟩

/-- C10: a cached value that fails to decode as JSON, is not a JSON object,
or fails `CompletionResponse` schema validation is treated exactly like an
absent entry: the pipeline run is observationally identical to one whose
store lacks the entry, so it proceeds to live dispatch and the request never
fails because of the malformed entry. -/
theorem C10_malformed_cache_entry_is_miss (env : Env) (g : String → CacheFetch)
    (req : CompletionRequest) (m : Metrics)
    (h : ∀ k, decodeCached (env.cacheGet k) = decodeCached (g k)) :
    route_completion env req m = route_completion { env with cacheGet := g } req m := by
  have hf : (fun k => decodeCached (env.cacheGet k)) =
      fun k => decodeCached (g k) := funext h
  unfold route_completion
  exact congrArg
    (fun L => routeCore env.registry env.pricing env.registered env.exec
      env.cacheEnabled L env.alriTag req m) hf

theorem C10_malformed_cache_entry_is_miss_witness :
    (∀ k, decodeCached (envBadJson.cacheGet k) =
      decodeCached ((fun _ => CacheFetch.absent) k)) ∧
    route_completion envBadJson reqHi zeroMetrics =
      route_completion { envBadJson with cacheGet := fun _ => .absent }
        reqHi zeroMetrics :=
  ⟨fun _ => rfl,
    C10_malformed_cache_entry_is_miss envBadJson
      (fun _ => .absent) reqHi zeroMetrics (fun _ => rfl)⟩

theorem respOf_eq_ok {x : Except LErr (CompletionResponse × Metrics)}
    {r : CompletionResponse} (h : respOf x = some r) : ∃ m', x = .ok (r, m') := by
  cases x with
  | ok p =>
    cases p with
    | mk r0 m0 =>
      simp only [respOf, Option.some.injEq] at h
      exact ⟨m0, by rw [h]⟩
  | error e => simp [respOf] at h

theorem choose_band_of_long (score : ℚ) (prompt : List Char)
    (h : prompt.length ≥ LONG_CONTEXT_CHAR_THRESHOLD) :
    choose_band score prompt = "long_context" := by
  simp only [choose_band]
  rw [if_pos h]

theorem band_auto_reason (n : String) :
    "band='" ++ n ++ "' (" ++ "auto" ++ ")" = "band='" ++ n ++ "' (auto)" := by
  rw [String.append_assoc, String.append_assoc]
  rfl

/-- C3: recoverable adapter errors (`provider_timeout`, `provider_rate_limit`,
`provider_internal`) make the loop continue to the next candidate in order
(second conjunct), and when every candidate of the band fails that way the
pipeline raises `provider_internal` whose provider field is the provider of
the last candidate's error — only that last error surfaces (first
conjunct). -/
theorem C3_recoverable_failover (env : Env) (req : CompletionRequest)
    (m : Metrics) (rb : String) (cfg : BandConfig)
    (hprompt : (stripL req.prompt).isEmpty = false)
    (hmodel : req.model = none)
    (hres : resolve_band env.registry (normalize_band req.band) = some rb)
    (hcfg : (get_band env.registry rb).orElse
      (fun _ => get_default_band env.registry) = some cfg)
    (hne : cfg.models.isEmpty = false)
    (hreg : ∀ c ∈ cfg.models, env.registered c.provider = true)
    (hnc : ∀ k, decodeCached (env.cacheGet k) = none)
    (hex : ∀ c ∈ cfg.models, ∃ e, env.exec c.provider c.model = .raise e ∧
      recoverable e.etype = true) :
    route_completion env req m =
      .error { etype := .providerInternal,
               message := "All provider candidates failed.",
               provider := (lastRaisedErr env.exec cfg.models none).bind (·.provider) } ∧
    ∀ (P : LoopCtx) (m2 : Metrics) (c : Candidate) (rest : List Candidate)
        (last : Option LErr) (e : LErr),
      P.registered c.provider = true →
      P.lookup (make_cache_key P.prompt c.provider c.model P.resolvedBand) = none →
      P.exec c.provider c.model = .raise e →
      recoverable e.etype = true →
      runCands P m2 (c :: rest) last = runCands P m2 rest (some e) := by
  constructor
  · simp only [route_completion, routeCore, hprompt, Bool.false_eq_true, if_false]
    rw [hres]
    dsimp only
    rw [hmodel]
    dsimp only
    rw [hcfg]
    dsimp only
    simp only [hne, Bool.false_eq_true, if_false]
    refine runCands_all_fail cfg.models none (fun c hc => hreg c hc) ?_
      (fun c hc => hex c hc)
    intro c _
    show (if env.cacheEnabled
      then decodeCached (env.cacheGet (make_cache_key (stripL req.prompt)
        c.provider c.model rb))
      else none) = none
    rcases henv : env.cacheEnabled <;> simp [henv, hnc]
  · intro P m2 c rest last e h1 h2 h3 h4
    exact runCands_skip h1 h2 h3 h4

theorem C3_recoverable_failover_witness :
    route_completion envFail reqHi zeroMetrics =
      .error { etype := .providerInternal,
               message := "All provider candidates failed.",
               provider := some "backup" } :=
  (C3_recoverable_failover envFail reqHi zeroMetrics "mid" midCfg rfl rfl rfl rfl
    rfl (by decide) (fun _ => rfl)
    (by intro c hc; fin_cases hc <;> exact ⟨_, rfl, rfl⟩)).1

/-- C4: a forced model overrides band selection — the candidate list collapses
to the single `(provider, model)` pair regardless of any band — with its
provider derived from the registry by a case-insensitive scan (the request
schema has no provider field, so it is never caller-specified), and a request
naming a model unknown to the registry fails with `provider_validation`. -/
theorem C4_model_override (env : Env) (req : CompletionRequest) (m : Metrics)
    (mdl : String)
    (hm : req.model = some mdl)
    (hprompt : (stripL req.prompt).isEmpty = false)
    (hreg : env.registry.bands ≠ [])
    (hnc : ∀ k, decodeCached (env.cacheGet k) = none) :
    (find_provider_for_model env.registry mdl = none →
      route_completion env req m =
        .error { etype := .providerValidation,
                 message := "Unknown model override '" ++ mdl ++
                   "'. Add it to the band config.",
                 provider := none }) ∧
    (∀ p r, find_provider_for_model env.registry mdl = some p →
      respOf (route_completion env req m) = some r →
      r.routing.candidates = [⟨p, mdl⟩] ∧ r.routing.chosen = ⟨p, mdl⟩ ∧
      r.provider = p ∧ r.model = mdl ∧
      r.routing.reason = "model override='" ++ mdl ++ "'") ∧
    (∀ m1 m2 : String, lowerStr m1 = lowerStr m2 →
      find_provider_for_model env.registry m1 =
        find_provider_for_model env.registry m2) := by
  refine ⟨?_, ?_, ?_⟩
  · intro hfp
    obtain ⟨rb, hrb⟩ := resolve_band_of_ne_nil hreg (normalize_band req.band)
    simp only [route_completion, routeCore, hprompt, Bool.false_eq_true, if_false]
    rw [hrb]
    dsimp only
    rw [hm]
    dsimp only
    rw [hfp]
  · intro p r hfp hro
    obtain ⟨m', hok⟩ := respOf_eq_ok hro
    obtain ⟨rb, cands, hres, hrun, hca⟩ := route_ok_destruct hok
    rcases hca with ⟨mdl0, p0, hm0, hfp0, hcands⟩ | ⟨hm0, _⟩
    · rw [hm] at hm0
      injection hm0 with hmm
      subst hmm
      rw [hfp] at hfp0
      injection hfp0 with hpp
      subst hpp
      subst hcands
      rcases runCands_ok_cases hrun with ⟨c, cached, _, hl, _, _⟩ |
          ⟨c, res, hc, _, hr, _⟩
      · exfalso
        rcases henv : env.cacheEnabled <;> simp [mkCtx, henv, hnc] at hl
      · have hc1 : c = ⟨p, mdl⟩ := by simpa using hc
        subst hc1
        subst hr
        refine ⟨rfl, rfl, rfl, rfl, ?_⟩
        show routing_reason req rb = _
        simp [routing_reason, hm]
    · rw [hm] at hm0
      cases hm0
  · intro m1 m2 h12
    unfold find_provider_for_model
    rw [h12]

theorem C4_model_override_witness :
    find_provider_for_model regFix "nope" = none ∧
    route_completion envOk reqUnknown zeroMetrics =
      .error { etype := .providerValidation,
               message := "Unknown model override 'nope'. Add it to the band config.",
               provider := none } :=
  ⟨rfl,
    (C4_model_override envOk reqUnknown zeroMetrics "nope" rfl rfl (by decide)
      (fun _ => rfl)).1 rfl⟩

/-- C5: every completed response carries a tag list that is sorted (code-point
order, as Python's `sorted`) and duplicate-free, and — given that the
spec-modelled `compute_alri_tag` output and any cached tags stay inside the
fixed taxonomy, see `alriTagOf` — every element is drawn from
`{PII_EMAIL, PII_PHONE, PII_FINANCIAL_CARD, PHI_MEDICAL, FINANCIAL_TERMS}`. -/
theorem C5_tags_sorted_unique_taxonomy (env : Env) (req : CompletionRequest)
    (m : Metrics) (r : CompletionResponse)
    (halri : ∀ b, env.alriTag b ∈ TAXONOMY)
    (hcache : ∀ k resp, decodeCached (env.cacheGet k) = some resp →
      ∀ t ∈ resp.tags, t ∈ TAXONOMY)
    (h : respOf (route_completion env req m) = some r) :
    SortedStr r.tags ∧ r.tags.Nodup ∧ ∀ t ∈ r.tags, t ∈ TAXONOMY := by
  obtain ⟨m', hok⟩ := respOf_eq_ok h
  obtain ⟨rb, cands, hres, hrun, _⟩ := route_ok_destruct hok
  rcases runCands_ok_cases hrun with ⟨c, cached, hc, hl, hr, _⟩ |
      ⟨c, res, hc, hx, hr, _⟩
  · subst hr
    refine ⟨sortDedup_sorted _, sortedStr_nodup (sortDedup_sorted _), ?_⟩
    intro t ht
    have ht' : t ∈ sortDedup (detect_tags (stripL req.prompt) ++
        detect_tags cached.text ++ cached.tags) := ht
    rw [mem_sortDedup] at ht'
    simp only [List.mem_append] at ht'
    rcases ht' with (h1 | h2) | h3
    · exact detect_tags_subset_taxonomy _ t h1
    · exact detect_tags_subset_taxonomy _ t h2
    · rcases henv : env.cacheEnabled
      · exfalso
        simp [mkCtx, henv] at hl
      · have hl' : decodeCached (env.cacheGet (make_cache_key (stripL req.prompt)
            c.provider c.model rb)) = some cached := by
          simpa [mkCtx, henv] using hl
        exact hcache _ cached hl' t h3
  · subst hr
    refine ⟨sortDedup_sorted _, sortedStr_nodup (sortDedup_sorted _), ?_⟩
    intro t ht
    have ht' : t ∈ sortDedup (detect_tags (stripL req.prompt) ++
        detect_tags res.output ++ [env.alriTag rb]) := ht
    rw [mem_sortDedup] at ht'
    simp only [List.mem_append] at ht'
    rcases ht' with (h1 | h2) | h3
    · exact detect_tags_subset_taxonomy _ t h1
    · exact detect_tags_subset_taxonomy _ t h2
    · have h4 : t = env.alriTag rb := by simpa using h3
      rw [h4]
      exact halri rb

theorem C5_tags_sorted_unique_taxonomy_witness :
    ((∀ b, Env.alriTag envOk b ∈ TAXONOMY) ∧
      respOf (route_completion envOk reqHi zeroMetrics) = some respFix) ∧
    SortedStr respFix.tags ∧ respFix.tags.Nodup ∧
      ∀ t ∈ respFix.tags, t ∈ TAXONOMY :=
  ⟨⟨fun _ => show "PHI_MEDICAL" ∈ TAXONOMY by decide, rfl⟩,
    C5_tags_sorted_unique_taxonomy envOk reqHi zeroMetrics respFix
      (fun _ => show "PHI_MEDICAL" ∈ TAXONOMY by decide)
      (fun k resp hk => by cases hk) rfl⟩

/-- C2 (amended): when a request supplies neither a band nor a forced model,
`route_completion` does not consult the complexity scorer at all — the band
used for routing and returned in the response is the registry's default band,
with a routing reason ending in `(auto)`. -/
theorem C2_default_band_when_auto (env : Env) (req : CompletionRequest)
    (m : Metrics) (r : CompletionResponse)
    (hband : req.band = none) (hmodel : req.model = none)
    (hnc : ∀ k, decodeCached (env.cacheGet k) = none)
    (hro : respOf (route_completion env req m) = some r) :
    ∀ cfg, get_default_band env.registry = some cfg →
      r.band = some cfg.name ∧
      r.routing.reason = "band='" ++ cfg.name ++ "' (auto)" := by
  intro cfg hdef
  obtain ⟨m', hok⟩ := respOf_eq_ok hro
  obtain ⟨rb, cands, hres, hrun, _⟩ := route_ok_destruct hok
  have hrb : rb = cfg.name := by
    rw [hband] at hres
    simp only [resolve_band, normalize_band, hdef, Option.map_some'] at hres
    exact (Option.some.injEq _ _ ▸ hres).symm
  rcases runCands_ok_cases hrun with ⟨c, cached, _, hl, _, _⟩ |
      ⟨c, res, hc, hx, hr, _⟩
  · exfalso
    rcases henv : env.cacheEnabled <;> simp [mkCtx, henv, hnc] at hl
  · subst hr
    constructor
    · show some rb = some cfg.name
      rw [hrb]
    · show routing_reason req rb = _
      rw [hrb]
      simp only [routing_reason, hmodel, hband, bandTruthy, if_false,
        Bool.false_eq_true]
      exact band_auto_reason cfg.name

theorem C2_default_band_when_auto_witness :
    (respOf (route_completion envOk reqHi zeroMetrics) = some respFix ∧
      get_default_band envOk.registry = some midCfg) ∧
    respFix.band = some midCfg.name ∧
    respFix.routing.reason = "band='" ++ midCfg.name ++ "' (auto)" :=
  ⟨⟨rfl, rfl⟩,
    C2_default_band_when_auto envOk reqHi zeroMetrics respFix rfl rfl
      (fun _ => rfl) rfl midCfg rfl⟩

/-- C2 (counterexample): for the spec's own S2 input — a 5,000-character
prompt containing "analyze compliance architecture", no band, no model — the
scorer infers `long_context`, which normalizes to `high`, yet
`route_completion` returns the registry default band `mid`: the pipeline never
consults the scorer, refuting the claim that the routed band equals the
inferred band. -/
theorem mem_dropWhile_of_not (p : Char → Bool) (l : List Char) (x : Char)
    (hx : x ∈ l) (hpx : p x = false) : x ∈ l.dropWhile p := by
  induction l with
  | nil => cases hx
  | cons a t ih =>
    rw [List.dropWhile_cons]
    rw [List.mem_cons] at hx
    rcases hx with rfl | hx
    · simp [hpx]
    · split_ifs with ha
      · exact ih hx
      · exact List.mem_cons_of_mem a hx

theorem stripL_ne_empty {l : List Char} (x : Char) (hx : x ∈ l)
    (hw : isWs x = false) : (stripL l).isEmpty = false := by
  rw [List.isEmpty_eq_false]
  unfold stripL
  intro hcontra
  rw [List.reverse_eq_nil_iff, List.dropWhile_eq_nil_iff] at hcontra
  have hx1 : x ∈ (l.dropWhile isWs).reverse :=
    List.mem_reverse.mpr (mem_dropWhile_of_not isWs l x hx hw)
  have := hcontra x hx1
  rw [hw] at this
  cases this

/-- A request with neither band nor model, whose default-band head candidate
succeeds, routes to the default band. -/
theorem route_auto_success (env : Env) (req : CompletionRequest) (m : Metrics)
    (cfg : BandConfig) (c : Candidate) (rest : List Candidate) (res : ExecResult)
    (hband : req.band = none) (hmodel : req.model = none)
    (hprompt : (stripL req.prompt).isEmpty = false)
    (hdef : get_default_band env.registry = some cfg)
    (hget : get_band env.registry cfg.name = some cfg)
    (hmodels : cfg.models = c :: rest)
    (hnc : ∀ k, decodeCached (env.cacheGet k) = none)
    (hreg : env.registered c.provider = true)
    (hx : env.exec c.provider c.model = .ok res) :
    (respOf (route_completion env req m)).map (·.band) = some (some cfg.name) := by
  have hres : resolve_band env.registry (normalize_band req.band) =
      some cfg.name := by
    rw [hband]
    simp [resolve_band, normalize_band, hdef]
  simp only [route_completion, routeCore, hprompt, Bool.false_eq_true, if_false]
  rw [hres]
  dsimp only
  rw [hmodel]
  dsimp only
  rw [show (get_band env.registry cfg.name).orElse
      (fun _ => get_default_band env.registry) = some cfg by rw [hget]; rfl]
  dsimp only
  rw [hmodels]
  simp only [List.isEmpty_cons, Bool.false_eq_true, if_false]
  have hlk : (if env.cacheEnabled then
      decodeCached (env.cacheGet (make_cache_key (stripL req.prompt) c.provider
        c.model cfg.name)) else none) = none := by
    rcases henv : env.cacheEnabled <;> simp [henv, hnc]
  simp only [runCands, mkCtx, hreg, if_true, hlk, hx]
  rfl

/-- C2 (counterexample): for the spec's own S2 input — a 5,000-character
prompt containing "analyze compliance architecture", no band, no model — the
scorer infers `long_context`, which normalizes to `high`, yet
`route_completion` returns the registry default band `mid`: the pipeline never
consults the scorer, refuting the claim that the routed band equals the
inferred band. -/
theorem C2_default_band_counterexample :
    (respOf (route_completion envOk reqBig zeroMetrics)).map (·.band) =
      some (some "mid") ∧
    normalizeBandStr (inferredBand bigPrompt) = "high" ∧
    ("mid" : String) ≠ "high" := by
  refine ⟨?_, ?_, by decide⟩
  · have hprompt : (stripL reqBig.prompt).isEmpty = false := by
      apply stripL_ne_empty 'a'
      · show 'a' ∈ bigPrompt
        unfold bigPrompt
        apply List.mem_append_left
        decide
      · decide
    exact route_auto_success envOk reqBig zeroMetrics midCfg ⟨"stub", "s1"⟩
      [⟨"backup", "s2"⟩] execOkFix rfl rfl hprompt rfl rfl rfl (fun _ => rfl)
      rfl rfl
  · have hlen : bigPrompt.length = 5000 := by
      simp only [bigPrompt, List.length_append, List.length_replicate]
      decide
    have hcb : choose_band (score_complexity bigPrompt) bigPrompt =
        "long_context" := by
      apply choose_band_of_long
      rw [hlen]
      decide
    rw [inferredBand, hcb]
    decide

/-- C1 (code evaluation at the failing input): serving `reqHi` from the cache
(the store holds `cachedRespFix`, usage 5 input / 7 output tokens, cost 0.26)
leaves the metrics with `total_input_tokens = 5`, `total_output_tokens = 7`
and `total_cost = 0.26` — the cached usage and cost were added to the
counters on a cache hit, where the claim requires them unchanged (the request
and cache-hit counters do increment, as the claim says). -/
theorem C1_cache_hit_counts_usage :
    (metricsOf (route_completion envHit reqHi zeroMetrics)).map
        (·.total_requests) = some 1 ∧
    (metricsOf (route_completion envHit reqHi zeroMetrics)).map
        (·.cache_hits) = some 1 ∧
    (metricsOf (route_completion envHit reqHi zeroMetrics)).map
        (·.total_input_tokens) = some 5 ∧
    (metricsOf (route_completion envHit reqHi zeroMetrics)).map
        (·.total_output_tokens) = some 7 ∧
    (metricsOf (route_completion envHit reqHi zeroMetrics)).map
        (·.total_cost) = some ((0 : ℚ) + 26/100) ∧
    ((0 : ℚ) + 26/100 ≠ 0 ∧ (5 : ℤ) ≠ 0 ∧ (7 : ℤ) ≠ 0) := by
  refine ⟨rfl, rfl, rfl, rfl, rfl, by norm_num, by decide, by decide⟩

end LatticeModel
